import Mathlib

/-!
Shallow embedding of the cetools dice engine.

Source files embedded:
  * `src/cetools/core/dice.py` — `DiceParser` (regex grammar, `roll_dice`,
    `roll_d66`, `apply_advantage`, `roll`) and the module-level `roll_dice`
    convenience function.
  * `src/src/cetools/dice.py` — the legacy `_parse_term` / `roll`
    implementation with its `MAX_DICE = 1000` ceiling.

Python's `random.Random(seed)` is a deterministic PRNG: a seeded source
produces a fixed stream of values.  We model it by an explicit `Rng` state
holding the seed and a draw counter, with a concrete mixing function; the
only facts the development relies on are that the stream is a function of
the seed and that `randint lo hi` lands in `[lo, hi]`, both of which hold
for CPython's generator.  The external configuration lookup
(`get_config_value "dice" "d66_unordered" False` in `roll_d66`) is modelled
by an explicit `cfg` argument carrying the value that lookup returns.
-/

namespace CETools

/-- Deterministic PRNG state standing in for `random.Random(seed)`:
the seed plus how many draws have been made. -/
structure Rng where
  seed : Int
  counter : Nat
  deriving Repr, DecidableEq

/-- `random.Random(seed)`: a fresh generator, no draws made yet. -/
def Rng.init (seed : Int) : Rng := ⟨seed, 0⟩

/-- One raw draw from the generator: a value below `2^31` mixed from the
seed and the draw counter, plus the advanced state. -/
def Rng.next (r : Rng) : Nat × Rng :=
  ((r.seed.natAbs * 1103515245 + r.counter * 12820163 + 12345) % 2147483648,
   ⟨r.seed, r.counter + 1⟩)

/-- `rng.randint(lo, hi)`: a uniform draw in `[lo, hi]` (inclusive, as in
Python); consumes one raw draw. -/
def Rng.randint (r : Rng) (lo hi : Nat) : Nat × Rng :=
  (lo + r.next.1 % (hi + 1 - lo), r.next.2)

/-- `class DiceType(Enum)` from `core/dice.py`. -/
inductive DiceType where
  | STANDARD
  | D66
  | D66_UNORDERED
  deriving Repr, DecidableEq

/-- `class AdvantageType(Enum)` from `core/dice.py`. -/
inductive AdvantageType where
  | NONE
  | ADVANTAGE
  | DISADVANTAGE
  deriving Repr, DecidableEq

/-- `@dataclass class DiceRoll`: result of a single die roll. -/
structure DiceRoll where
  die_size : Nat
  result : Nat
  deriving Repr, DecidableEq

/-- `@dataclass class RollResult` from `core/dice.py`. -/
structure RollResult where
  expression : String
  dice_type : DiceType
  individual_rolls : List DiceRoll
  modifier : Int
  advantage : AdvantageType
  total : Int
  breakdown : String
  d66_composed : Option Nat := none
  deriving Repr, DecidableEq

/-- The exception kinds the two dice modules raise:
`DiceExpressionError` (core), `ValueError` (core convenience function),
`InvalidInputError` (legacy module). -/
inductive DiceError where
  | expressionError (msg : String)
  | valueError (msg : String)
  | invalidInputError (msg : String)
  deriving Repr, DecidableEq

/-- The `(DiceType, params-dict)` pair `parse_expression` returns: either
`(STANDARD, {count, size, modifier})` or `(D66 / D66_UNORDERED, {modifier})`
with the unordered flag recording which of the two D66 types it is. -/
inductive ParseResult where
  | standard (count size : Nat) (modifier : Int)
  | d66 (unordered : Bool) (modifier : Int)
  deriving Repr, DecidableEq

/-! ### Regex matching

`STANDARD_PATTERN = ^(?P<count>\d+)?d(?P<size>\d+)(?P<modifier>[+\-]\d+)?$`
and `D66_PATTERN = ^d66(?P<unordered>u)?(?P<modifier>[+\-]\d+)?$`, both
`re.IGNORECASE`.  Case-insensitivity is rendered by matching the lowercased
string (the patterns' only letters are `d` and `u`).  Greedy digit munching
is exact here: a digit run is always followed by a non-digit requirement
(`d`, a sign, or end of string), so the regexes never backtrack into a
digit group. -/

/-- Python `str.strip()`: drop leading and trailing whitespace. -/
def pyStrip (cs : List Char) : List Char :=
  ((cs.dropWhile Char.isWhitespace).reverse.dropWhile Char.isWhitespace).reverse

/-- Python `str.lower()` over the characters the grammar can meet. -/
def pyLower (cs : List Char) : List Char :=
  cs.map Char.toLower

/-- Does `hay` start with `needle`? (Plain character-list comparison.) -/
def beginsWith : List Char → List Char → Bool
  | _, [] => true
  | [], _ :: _ => false
  | h :: hs, n :: ns => h = n && beginsWith hs ns

/-- Does `hay` contain `needle` as a contiguous substring?  Used to state
whether an error message carries the offending input text. -/
def containsSub : List Char → List Char → Bool
  | [], needle => needle.isEmpty
  | h :: hs, needle => beginsWith (h :: hs) needle || containsSub hs needle

/-- Longest digit prefix of a character list, and the rest. -/
def takeDigits : List Char → List Char × List Char
  | [] => ([], [])
  | c :: cs =>
    if c.isDigit then
      let (ds, rest) := takeDigits cs
      (c :: ds, rest)
    else ([], c :: cs)

/-- `int(...)` on a digit string. -/
def natOfDigits (ds : List Char) : Nat :=
  ds.foldl (fun n c => n * 10 + (c.toNat - 48)) 0

/-- Matches `(?P<modifier>[+\-]\d+)?$` and returns the signed modifier
(`0` when the group is absent, as `int(... or "0")` does). -/
def parseModTail : List Char → Option Int
  | [] => some 0
  | c :: cs =>
    if c = '+' ∨ c = '-' then
      let (ds, rest) := takeDigits cs
      if ds ≠ [] ∧ rest = [] then
        some (if c = '-' then -(natOfDigits ds : Int) else (natOfDigits ds : Int))
      else none
    else none

/-- `D66_PATTERN.match` on the lowercased trimmed input; on success returns
(unordered group present, modifier). -/
def matchD66 : List Char → Option (Bool × Int)
  | 'd' :: '6' :: '6' :: rest =>
    match rest with
    | 'u' :: rest2 => (parseModTail rest2).map (fun m => (true, m))
    | _ => (parseModTail rest).map (fun m => (false, m))
  | _ => none

/-- `STANDARD_PATTERN.match` on the lowercased trimmed input; on success
returns (count group if present, size, modifier). -/
def matchStd (cs : List Char) : Option (Option Nat × Nat × Int) :=
  let (countDs, rest) := takeDigits cs
  match rest with
  | 'd' :: rest2 =>
    let (sizeDs, rest3) := takeDigits rest2
    if sizeDs = [] then none
    else
      (parseModTail rest3).map (fun m =>
        ((if countDs = [] then none else some (natOfDigits countDs)),
         natOfDigits sizeDs, m))
  | _ => none

/-- The character list the regexes run over: input stripped, lowercased
(rendering `re.IGNORECASE`; the patterns' only letters are `d` and `u`). -/
def normalize (expression : String) : List Char :=
  pyLower (pyStrip expression.toList)

/-- `DiceParser.parse_expression`: strip, try the D66 pattern first, then
the standard pattern, validating `count > 0` and `size > 0`. -/
def parse_expression (expression : String) : Except DiceError ParseResult :=
  let expr := String.mk (pyStrip expression.toList)
  match matchD66 (normalize expression) with
  | some (u, m) => .ok (.d66 u m)
  | none =>
    match matchStd (normalize expression) with
    | some (countOpt, size, m) =>
      let count := countOpt.getD 1
      if count ≤ 0 ∨ size ≤ 0 then
        .error (.expressionError "Dice count and size must be positive")
      else .ok (.standard count size m)
    | none => .error (.expressionError ("Invalid dice expression: " ++ expr))

/-! ### Roll engine -/

/-- `DiceParser.roll_dice(count, size)`: `count` independent draws of
`randint(1, size)`, in order, threading the generator. -/
def roll_diceN (rng : Rng) (count size : Nat) : List DiceRoll × Rng :=
  match count with
  | 0 => ([], rng)
  | n + 1 =>
    let d := rng.randint 1 size
    let rest := roll_diceN d.2 n size
    (⟨size, d.1⟩ :: rest.1, rest.2)

/-- The extra-draw loop of `apply_advantage`: one extra die per original,
drawn immediately after the originals, matching each original's size. -/
def rollExtras (rng : Rng) : List DiceRoll → List DiceRoll × Rng
  | [] => ([], rng)
  | r :: rs =>
    let d := rng.randint 1 r.die_size
    let rest := rollExtras d.2 rs
    (⟨r.die_size, d.1⟩ :: rest.1, rest.2)

/-- The selection loop of `apply_advantage`: pairwise best (advantage) or
worst (disadvantage), ties keeping the original. -/
def selectRolls : List DiceRoll → List DiceRoll → AdvantageType → List DiceRoll
  | [], _, _ => []
  | _ :: _, [], _ => []
  | o :: os, e :: es, adv =>
    (if adv = .ADVANTAGE then (if o.result ≥ e.result then o else e)
     else (if o.result ≤ e.result then o else e)) :: selectRolls os es adv

/-- `DiceParser.apply_advantage`: returns (selected rolls, all rolls). -/
def apply_advantage (rng : Rng) (rolls : List DiceRoll) (advantage : AdvantageType) :
    (List DiceRoll × List DiceRoll) × Rng :=
  if advantage = .NONE then ((rolls, rolls), rng)
  else
    let ex := rollExtras rng rolls
    ((selectRolls rolls ex.1 advantage, rolls ++ ex.1), ex.2)

/-- `DiceParser.roll_d66(unordered)`: `cfg` is the value
`get_config_value("dice", "d66_unordered", False)` returns.  Rolls two d6
and composes `die1 * 10 + die2`, sorting descending first when unordered. -/
def roll_d66 (cfg : Bool) (rng : Rng) (unordered0 : Bool) :
    (List DiceRoll × Nat) × Rng :=
  let unordered := if unordered0 then true else cfg
  let d1 := rng.randint 1 6
  let d2 := d1.2.randint 1 6
  let x1 := d1.1
  let x2 := d2.1
  let die1 := if unordered then max x1 x2 else x1
  let die2 := if unordered then min x1 x2 else x2
  (([⟨6, x1⟩, ⟨6, x2⟩], die1 * 10 + die2), d2.2)

/-- `", ".join(str(roll.result) for roll in rolls)`. -/
def joinResults (rolls : List DiceRoll) : String :=
  String.intercalate ", " (rolls.map (fun r => toString r.result))

/-- The `" {op}{modifier}"` fragment appended when `modifier != 0`
(empty when it is 0). -/
def modifierPart (modifier : Int) : String :=
  if modifier ≠ 0 then
    " " ++ (if modifier ≥ 0 then "+" else "") ++ toString modifier
  else ""

/-- The breakdown string built in the STANDARD branch of `DiceParser.roll`. -/
def stdBreakdown (advantage : AdvantageType) (breakdown_rolls selected_rolls : List DiceRoll)
    (modifier final_total : Int) : String :=
  (if advantage ≠ .NONE then
    "[" ++ joinResults breakdown_rolls ++ "] ("
      ++ (if advantage = .ADVANTAGE then "adv" else "dis")
      ++ ": " ++ joinResults selected_rolls ++ ")"
  else
    "[" ++ joinResults selected_rolls ++ "]")
  ++ modifierPart modifier ++ " = " ++ toString final_total

/-- The breakdown string built in the D66 branch of `DiceParser.roll`;
note the `" = total"` tail only appears when the modifier is nonzero. -/
def d66Breakdown (rolls : List DiceRoll) (unordered : Bool)
    (composed : Nat) (modifier final_total : Int) : String :=
  let roll_str := "d66: " ++ toString ((rolls.headD ⟨6, 0⟩).result) ++ ","
    ++ toString (((rolls.drop 1).headD ⟨6, 0⟩).result)
  let roll_str := roll_str ++
    (if unordered then
      let s1 := max ((rolls.headD ⟨6, 0⟩).result) (((rolls.drop 1).headD ⟨6, 0⟩).result)
      let s2 := min ((rolls.headD ⟨6, 0⟩).result) (((rolls.drop 1).headD ⟨6, 0⟩).result)
      " (sorted: " ++ toString s1 ++ "," ++ toString s2 ++ ")"
    else "")
  let roll_str := roll_str ++ " → " ++ toString composed
  roll_str ++
    (if modifier ≠ 0 then
      " " ++ (if modifier ≥ 0 then "+" else "") ++ toString modifier
        ++ " = " ++ toString final_total
    else "")

/-- Sum of the `result` fields, as the Python `sum(...)` (an int). -/
def diceTotal (rolls : List DiceRoll) : Int :=
  (rolls.map (fun r => (r.result : Int))).sum

/-- `DiceParser.roll(expression, advantage)`: parse, draw, apply
advantage, total, and render the breakdown.  Returns the result together
with the generator state after the call. -/
def DiceParser.roll (cfg : Bool) (rng : Rng) (expression : String)
    (advantage : AdvantageType) : Except DiceError (RollResult × Rng) :=
  match parse_expression expression with
  | .error e => .error e
  | .ok (.standard count size modifier) =>
    let drawn := roll_diceN rng count size
    let applied :=
      if advantage ≠ .NONE then apply_advantage drawn.2 drawn.1 advantage
      else ((drawn.1, drawn.1), drawn.2)
    let selected_rolls := applied.1.1
    let breakdown_rolls := applied.1.2
    let final_total := diceTotal selected_rolls + modifier
    .ok ({ expression := expression
           dice_type := .STANDARD
           individual_rolls := selected_rolls
           modifier := modifier
           advantage := advantage
           total := final_total
           breakdown := stdBreakdown advantage breakdown_rolls selected_rolls modifier final_total
           d66_composed := none }, applied.2)
  | .ok (.d66 unordered modifier) =>
    let rc := roll_d66 cfg rng unordered
    let rolls := rc.1.1
    let composed := rc.1.2
    let final_total := (composed : Int) + modifier
    .ok ({ expression := expression
           dice_type := if unordered then .D66_UNORDERED else .D66
           individual_rolls := rolls
           modifier := modifier
           advantage := advantage
           total := final_total
           breakdown := d66Breakdown rolls unordered composed modifier final_total
           d66_composed := some composed }, rc.2)

/-- The module-level `roll_dice(expression, seed, advantage, disadvantage)`
convenience function.  `entropy` models the OS entropy a seedless
`random.Random()` would consume; it is used only when `seed` is `none`. -/
def roll_dice (cfg : Bool) (entropy : Rng) (expression : String) (seed : Option Int)
    (advantage disadvantage : Bool) : Except DiceError RollResult :=
  if advantage ∧ disadvantage then
    .error (.valueError "Cannot specify both advantage and disadvantage")
  else
    let adv_type : AdvantageType :=
      if advantage then .ADVANTAGE
      else if disadvantage then .DISADVANTAGE
      else .NONE
    let rng := match seed with
      | some s => Rng.init s
      | none => entropy
    (DiceParser.roll cfg rng expression adv_type).map Prod.fst

/-! ### Legacy module `src/src/cetools/dice.py`

`_DICE_RE = ^\s*(?:(?P<count>\d*)d(?P<sides>\d+)(?P<mod>[+-]\d+)?)\s*$`
with `re.I`; `roll` splits on commas, parses each term, enforces
`MAX_DICE = 1000`, and accumulates rolls and modifiers. -/

/-- Drop leading whitespace (the `\s*` pieces of the legacy regex). -/
def skipWs : List Char → List Char
  | [] => []
  | c :: cs => if c.isWhitespace then skipWs cs else c :: cs

/-- Matches `(?P<mod>[+-]\d+)?\s*$` for the legacy pattern. -/
def legacyModTail (cs : List Char) : Option Int :=
  match cs with
  | [] => some 0
  | c :: rest =>
    if c = '+' ∨ c = '-' then
      let (ds, rest2) := takeDigits rest
      if ds ≠ [] ∧ skipWs rest2 = [] then
        some (if c = '-' then -(natOfDigits ds : Int) else (natOfDigits ds : Int))
      else none
    else if skipWs (c :: rest) = [] then some 0 else none

/-- `_DICE_RE.match` on the lowercased term; on success returns
(count defaulted to 1 when the `\d*` group is empty, sides, modifier). -/
def legacyMatch (cs : List Char) : Option (Nat × Nat × Int) :=
  let cs := skipWs cs
  let (countDs, rest) := takeDigits cs
  match rest with
  | 'd' :: rest2 =>
    let (sidesDs, rest3) := takeDigits rest2
    if sidesDs = [] then none
    else
      (legacyModTail rest3).map (fun m =>
        ((if countDs = [] then 1 else natOfDigits countDs), natOfDigits sidesDs, m))
  | _ => none

/-- Legacy `_parse_term`: regex match plus the `count >= 1` / `sides >= 1`
checks, raising `InvalidInputError` otherwise. -/
def legacy_parse_term (term : String) : Except DiceError (Nat × Nat × Int) :=
  match legacyMatch (pyLower term.toList) with
  | none => .error (.invalidInputError ("Invalid dice expression: '" ++ term ++ "'"))
  | some (count, sides, modifier) =>
    if count < 1 then .error (.invalidInputError "Dice count must be >= 1")
    else if sides < 1 then .error (.invalidInputError "Dice sides must be >= 1")
    else .ok (count, sides, modifier)

/-- Legacy `RollResult` (`src/src/cetools/models.py`): expression text,
flat list of individual die values, total. -/
structure LegacyRollResult where
  expression : String
  breakdown : List Nat
  total : Int
  deriving Repr, DecidableEq

/-- The inner roll loop of the legacy `roll`: `count` draws of
`randint(1, sides)` appended in order. -/
def legacyDraw (rng : Rng) (count sides : Nat) : List Nat × Rng :=
  match count with
  | 0 => ([], rng)
  | n + 1 =>
    let d := rng.randint 1 sides
    let rest := legacyDraw d.2 n sides
    (d.1 :: rest.1, rest.2)

/-- The per-part loop of the legacy `roll`: parse each term, enforce the
`MAX_DICE = 1000` ceiling, roll, and accumulate breakdown and total. -/
def legacyGo (rng : Rng) (breakdown : List Nat) (total : Int) :
    List String → Except DiceError (List Nat × Int)
  | [] => .ok (breakdown, total)
  | part :: rest =>
    match legacy_parse_term part with
    | .error e => .error e
    | .ok (count, sides, modifier) =>
      if count > 1000 then
        .error (.invalidInputError ("Dice count too large: " ++ toString count))
      else
        let d := legacyDraw rng count sides
        legacyGo d.2 (breakdown ++ d.1) (total + (d.1.sum : Int) + modifier) rest

/-- Python `str.split(",")`: split a character list at every comma. -/
def splitComma : List Char → List (List Char)
  | [] => [[]]
  | c :: cs =>
    if c = ',' then [] :: splitComma cs
    else
      match splitComma cs with
      | [] => [[c]]
      | p :: ps => (c :: p) :: ps

/-- Legacy `roll(expression, seed)`: reject empty input, seed a fresh
generator, split on commas, and run the per-part loop. -/
def legacy_roll (expression : String) (seed : Int) : Except DiceError LegacyRollResult :=
  if pyStrip expression.toList = [] then
    .error (.invalidInputError "Expression must be a non-empty string")
  else
    let rng := Rng.init seed
    let parts := ((splitComma expression.toList).map
      (fun p => String.mk (pyStrip p))).filter (fun p => p ≠ "")
    if parts = [] then .error (.invalidInputError "No dice expressions found")
    else
      match legacyGo rng [] 0 parts with
      | .error e => .error e
      | .ok (breakdown, total) =>
        .ok { expression := expression, breakdown := breakdown, total := total }

/-! ### Derived views of the draw pipeline -/

/-- The first batch a standard roll draws. -/
def originals (rng : Rng) (count size : Nat) : List DiceRoll :=
  (roll_diceN rng count size).1

/-- The extra batch `apply_advantage` draws, starting from the generator
state left after the originals. -/
def extraBatch (rng : Rng) (count size : Nat) : List DiceRoll :=
  (rollExtras (roll_diceN rng count size).2 (roll_diceN rng count size).1).1

/-- First d6 value a D66 roll draws. -/
def d66first (rng : Rng) : Nat := (rng.randint 1 6).1

/-- Second d6 value a D66 roll draws. -/
def d66second (rng : Rng) : Nat := ((rng.randint 1 6).2.randint 1 6).1

/-- Generator state after the two d6 draws of a D66 roll. -/
def d66after (rng : Rng) : Rng := ((rng.randint 1 6).2.randint 1 6).2

end CETools

deriving instance DecidableEq for Except

namespace CETools

/-! ### Helper lemmas -/

theorem randint_fst_le (r : Rng) (lo hi : Nat) (h : lo ≤ hi) :
    lo ≤ (r.randint lo hi).1 ∧ (r.randint lo hi).1 ≤ hi := by
  have hk : 0 < hi + 1 - lo := by omega
  have hm := Nat.mod_lt r.next.1 hk
  unfold Rng.randint
  constructor <;> omega

theorem roll_error_of_parse (cfg : Bool) (rng : Rng) (E : String)
    (adv : AdvantageType) (e : DiceError) (h : parse_expression E = .error e) :
    DiceParser.roll cfg rng E adv = .error e := by
  unfold DiceParser.roll
  rw [h]

theorem roll_ok_of_parse (cfg : Bool) (rng : Rng) (E : String)
    (adv : AdvantageType) (pr : ParseResult) (h : parse_expression E = .ok pr) :
    (DiceParser.roll cfg rng E adv).isOk = true := by
  unfold DiceParser.roll
  rw [h]
  cases pr <;> rfl

theorem roll_standard_eq (cfg : Bool) (rng : Rng) (E : String) (adv : AdvantageType)
    (count size : Nat) (modifier : Int)
    (h : parse_expression E = .ok (.standard count size modifier)) :
    DiceParser.roll cfg rng E adv =
      (let drawn := roll_diceN rng count size
       let applied :=
         if adv ≠ .NONE then apply_advantage drawn.2 drawn.1 adv
         else ((drawn.1, drawn.1), drawn.2)
       let final_total := diceTotal applied.1.1 + modifier
       .ok ({ expression := E
              dice_type := .STANDARD
              individual_rolls := applied.1.1
              modifier := modifier
              advantage := adv
              total := final_total
              breakdown := stdBreakdown adv applied.1.2 applied.1.1 modifier final_total
              d66_composed := none }, applied.2)) := by
  unfold DiceParser.roll
  rw [h]

theorem roll_d66_eq (cfg : Bool) (rng : Rng) (E : String) (adv : AdvantageType)
    (u : Bool) (modifier : Int)
    (h : parse_expression E = .ok (.d66 u modifier)) :
    DiceParser.roll cfg rng E adv =
      (let rc := roll_d66 cfg rng u
       let final_total := (rc.1.2 : Int) + modifier
       .ok ({ expression := E
              dice_type := if u then .D66_UNORDERED else .D66
              individual_rolls := rc.1.1
              modifier := modifier
              advantage := adv
              total := final_total
              breakdown := d66Breakdown rc.1.1 u rc.1.2 modifier final_total
              d66_composed := some rc.1.2 }, rc.2)) := by
  unfold DiceParser.roll
  rw [h]

theorem apply_advantage_ne (rng : Rng) (rolls : List DiceRoll)
    (adv : AdvantageType) (h : adv ≠ .NONE) :
    apply_advantage rng rolls adv =
      ((selectRolls rolls (rollExtras rng rolls).1 adv,
        rolls ++ (rollExtras rng rolls).1), (rollExtras rng rolls).2) := by
  unfold apply_advantage
  rw [if_neg h]

theorem roll_diceN_length (rng : Rng) (count size : Nat) :
    (roll_diceN rng count size).1.length = count := by
  induction count generalizing rng with
  | zero => rfl
  | succ n ih => simp [roll_diceN, ih]

theorem rollExtras_length (rng : Rng) (l : List DiceRoll) :
    (rollExtras rng l).1.length = l.length := by
  induction l generalizing rng with
  | nil => rfl
  | cons r rs ih => simp [rollExtras, ih]

theorem selectRolls_length (os es : List DiceRoll) (adv : AdvantageType)
    (h : os.length = es.length) :
    (selectRolls os es adv).length = os.length := by
  induction os generalizing es with
  | nil => rfl
  | cons o os ih =>
    cases es with
    | nil => simp at h
    | cons e es => simp [selectRolls, ih es (by simpa using h)]

theorem selectRolls_getElem (os : List DiceRoll) (adv : AdvantageType) :
    ∀ (es : List DiceRoll) (i : Nat) (o e : DiceRoll),
      os[i]? = some o → es[i]? = some e →
      (selectRolls os es adv)[i]? = some
        (if adv = .ADVANTAGE then (if o.result ≥ e.result then o else e)
         else (if o.result ≤ e.result then o else e)) := by
  induction os with
  | nil => intro es i o e ho; simp at ho
  | cons o0 os ih =>
    intro es i o e ho he
    cases es with
    | nil => simp at he
    | cons e0 es =>
      cases i with
      | zero =>
        simp only [List.getElem?_cons_zero, Option.some.injEq] at ho he
        subst ho; subst he
        simp [selectRolls]
      | succ n =>
        simp only [List.getElem?_cons_succ] at ho he
        simpa [selectRolls] using ih es n o e ho he

theorem select_pick_adv (o e : DiceRoll) :
    (if o.result ≥ e.result then o else e).result = max o.result e.result := by
  split <;> omega

theorem select_pick_dis (o e : DiceRoll) :
    (if o.result ≤ e.result then o else e).result = min o.result e.result := by
  split <;> omega

theorem digits_range (a b : Nat) (ha1 : 1 ≤ a) (ha6 : a ≤ 6)
    (hb1 : 1 ≤ b) (hb6 : b ≤ 6) :
    11 ≤ 10 * a + b ∧ 10 * a + b ≤ 66 := by
  omega

theorem select_pick_tie (o e : DiceRoll) (adv : AdvantageType)
    (h : o.result = e.result) :
    (if adv = .ADVANTAGE then (if o.result ≥ e.result then o else e)
     else (if o.result ≤ e.result then o else e)) = o := by
  split <;> rw [if_pos (by omega)]

/-! ### Claim theorems -/

/-- C1: for every expression string `E` and every integer seed `S`, two
independent calls to `roll_dice(E, seed=S)` with identical
advantage/disadvantage flags produce results with identical `total`,
identical `individual_rolls`, and identical `breakdown` — here rendered as:
the outcome of `roll_dice` with seed `some S` does not depend on the
entropy the generator would otherwise have drawn, so any two calls agree
on the whole result and on each of the three fields. -/
theorem roll_dice_deterministic (cfg : Bool) (ent1 ent2 : Rng) (E : String)
    (S : Int) (adv dis : Bool) :
    roll_dice cfg ent1 E (some S) adv dis = roll_dice cfg ent2 E (some S) adv dis ∧
    (roll_dice cfg ent1 E (some S) adv dis).map RollResult.total
      = (roll_dice cfg ent2 E (some S) adv dis).map RollResult.total ∧
    (roll_dice cfg ent1 E (some S) adv dis).map RollResult.individual_rolls
      = (roll_dice cfg ent2 E (some S) adv dis).map RollResult.individual_rolls ∧
    (roll_dice cfg ent1 E (some S) adv dis).map RollResult.breakdown
      = (roll_dice cfg ent2 E (some S) adv dis).map RollResult.breakdown :=
  ⟨rfl, rfl, rfl, rfl⟩

/-- C2: for every standard roll executed with advantage mode NONE, the
result's total equals the sum of the result fields of the selected dice
(`individual_rolls`) plus the parsed modifier, and the selected set equals
the drawn set. -/
theorem standard_none_total_law (cfg : Bool) (rng : Rng) (E : String)
    (count size : Nat) (modifier : Int)
    (h : parse_expression E = .ok (.standard count size modifier)) :
    ∃ r rng2, DiceParser.roll cfg rng E .NONE = .ok (r, rng2) ∧
      r.total = diceTotal r.individual_rolls + modifier ∧
      r.modifier = modifier ∧
      r.individual_rolls = originals rng count size := by
  rw [roll_standard_eq cfg rng E .NONE count size modifier h]
  exact ⟨_, _, rfl, rfl, rfl, rfl⟩

/-- C2 witness: instantiated at `2d6+3` with seed 42. -/
theorem standard_none_total_law_witness :
    ∃ r rng2, DiceParser.roll false (Rng.init 42) "2d6+3" .NONE = .ok (r, rng2) ∧
      r.total = diceTotal r.individual_rolls + 3 ∧
      r.modifier = 3 ∧
      r.individual_rolls = originals (Rng.init 42) 2 6 :=
  standard_none_total_law false (Rng.init 42) "2d6+3" 2 6 3 (by decide)

/-- C7: each of the input strings `""`, `"invalid"`, `"2d"`, `"0d6"`,
`"2d0"`, `"d6d6"`, `"2d6+"`, `"d66ux"` is rejected with a
`DiceExpressionError`, and no dice are drawn for any of them: `roll` fails
with the parse error for every generator state, returning no result and no
advanced generator. -/
theorem grammar_rejection (cfg : Bool) (rng : Rng) (adv : AdvantageType) :
    DiceParser.roll cfg rng "" adv
      = .error (.expressionError "Invalid dice expression: ") ∧
    DiceParser.roll cfg rng "invalid" adv
      = .error (.expressionError "Invalid dice expression: invalid") ∧
    DiceParser.roll cfg rng "2d" adv
      = .error (.expressionError "Invalid dice expression: 2d") ∧
    DiceParser.roll cfg rng "0d6" adv
      = .error (.expressionError "Dice count and size must be positive") ∧
    DiceParser.roll cfg rng "2d0" adv
      = .error (.expressionError "Dice count and size must be positive") ∧
    DiceParser.roll cfg rng "d6d6" adv
      = .error (.expressionError "Invalid dice expression: d6d6") ∧
    DiceParser.roll cfg rng "2d6+" adv
      = .error (.expressionError "Invalid dice expression: 2d6+") ∧
    DiceParser.roll cfg rng "d66ux" adv
      = .error (.expressionError "Invalid dice expression: d66ux") :=
  ⟨roll_error_of_parse _ _ _ _ _ (by decide),
   roll_error_of_parse _ _ _ _ _ (by decide),
   roll_error_of_parse _ _ _ _ _ (by decide),
   roll_error_of_parse _ _ _ _ _ (by decide),
   roll_error_of_parse _ _ _ _ _ (by decide),
   roll_error_of_parse _ _ _ _ _ (by decide),
   roll_error_of_parse _ _ _ _ _ (by decide),
   roll_error_of_parse _ _ _ _ _ (by decide)⟩

/-- C8: every input whose normalized form matches both the D66 grammar and
the standard grammar (e.g. `d66`, `D66-1`, `d66+3`, which also match the
standard pattern as one 66-sided die) is classified by `parse_expression`
as a composite D66 request, never as a standard roll. -/
theorem d66_precedence (E : String) (u : Bool) (m : Int)
    (c : Option Nat) (s : Nat) (m2 : Int)
    (h1 : matchD66 (normalize E) = some (u, m))
    (_h2 : matchStd (normalize E) = some (c, s, m2)) :
    parse_expression E = .ok (.d66 u m) := by
  unfold parse_expression
  rw [h1]

/-- C3: for every standard roll of `count` dice executed with ADVANTAGE or
DISADVANTAGE: exactly `count` extra dice are drawn after the originals; for
every index `i` the selected die's result equals
`max(original[i].result, extra[i].result)` under ADVANTAGE and
`min(...)` under DISADVANTAGE, with ties keeping the original die; and the
"all" set used for the breakdown is the originals followed by the extras,
of length `2*count`. -/
theorem advantage_pairing (cfg : Bool) (rng : Rng) (E : String)
    (count size : Nat) (modifier : Int) (adv : AdvantageType)
    (hp : parse_expression E = .ok (.standard count size modifier))
    (ha : adv ≠ .NONE) :
    ∃ r rng2, DiceParser.roll cfg rng E adv = .ok (r, rng2) ∧
      (extraBatch rng count size).length = count ∧
      r.individual_rolls
        = selectRolls (originals rng count size) (extraBatch rng count size) adv ∧
      r.individual_rolls.length = count ∧
      r.breakdown = stdBreakdown adv
        (originals rng count size ++ extraBatch rng count size)
        r.individual_rolls modifier r.total ∧
      (originals rng count size ++ extraBatch rng count size).length = 2 * count ∧
      (∀ i, i < count → ∃ o e s,
        (originals rng count size)[i]? = some o ∧
        (extraBatch rng count size)[i]? = some e ∧
        r.individual_rolls[i]? = some s ∧
        (adv = .ADVANTAGE → s.result = max o.result e.result) ∧
        (adv = .DISADVANTAGE → s.result = min o.result e.result) ∧
        (o.result = e.result → s = o)) := by
  have hlen_o : (originals rng count size).length = count :=
    roll_diceN_length rng count size
  have hlen_e : (extraBatch rng count size).length = count := by
    unfold extraBatch
    rw [rollExtras_length, roll_diceN_length]
  rw [roll_standard_eq cfg rng E adv count size modifier hp]
  simp only [if_pos ha, apply_advantage_ne _ _ _ ha]
  refine ⟨_, _, rfl, hlen_e, rfl, ?_, rfl, ?_, ?_⟩
  · show (selectRolls (originals rng count size) (extraBatch rng count size) adv).length
      = count
    rw [selectRolls_length _ _ _ (by omega), hlen_o]
  · rw [List.length_append, hlen_o, hlen_e]
    omega
  · intro i hi
    have hio : i < (originals rng count size).length := by omega
    have hie : i < (extraBatch rng count size).length := by omega
    refine ⟨(originals rng count size)[i], (extraBatch rng count size)[i], _,
      List.getElem?_eq_getElem hio, List.getElem?_eq_getElem hie,
      selectRolls_getElem (originals rng count size) adv (extraBatch rng count size)
        i _ _ (List.getElem?_eq_getElem hio) (List.getElem?_eq_getElem hie),
      ?_, ?_, ?_⟩
    · intro hadv
      subst hadv
      simp only [if_pos rfl]
      exact select_pick_adv _ _
    · intro hadv
      subst hadv
      rw [if_neg (by simp)]
      exact select_pick_dis _ _
    · exact select_pick_tie _ _ _

/-- C3 witness: instantiated at `2d6` with seed 0 under ADVANTAGE. -/
theorem advantage_pairing_witness :
    ∃ r rng2, DiceParser.roll false (Rng.init 0) "2d6" .ADVANTAGE = .ok (r, rng2) ∧
      (extraBatch (Rng.init 0) 2 6).length = 2 ∧
      r.individual_rolls
        = selectRolls (originals (Rng.init 0) 2 6) (extraBatch (Rng.init 0) 2 6)
            .ADVANTAGE ∧
      r.individual_rolls.length = 2 ∧
      r.breakdown = stdBreakdown .ADVANTAGE
        (originals (Rng.init 0) 2 6 ++ extraBatch (Rng.init 0) 2 6)
        r.individual_rolls 0 r.total ∧
      (originals (Rng.init 0) 2 6 ++ extraBatch (Rng.init 0) 2 6).length = 2 * 2 ∧
      (∀ i, i < 2 → ∃ o e s,
        (originals (Rng.init 0) 2 6)[i]? = some o ∧
        (extraBatch (Rng.init 0) 2 6)[i]? = some e ∧
        r.individual_rolls[i]? = some s ∧
        (AdvantageType.ADVANTAGE = .ADVANTAGE → s.result = max o.result e.result) ∧
        (AdvantageType.ADVANTAGE = .DISADVANTAGE → s.result = min o.result e.result) ∧
        (o.result = e.result → s = o)) :=
  advantage_pairing false (Rng.init 0) "2d6" 2 6 0 .ADVANTAGE (by decide) (by decide)

/-- C4: for every composite D66 roll, exactly two six-sided dice are drawn;
the composed value equals `10*first + second` with the pair taken in draw
order for ordered rolls and sorted descending for unordered rolls (the
effective ordering flag being the explicit `u` suffix or, failing that, the
configured default); hence the composed value is `10*a+b` with
`a, b ∈ [1,6]`, so in `{11,...,66}`; and the result's total equals
`composedValue + modifier`. -/
theorem d66_range (cfg : Bool) (rng : Rng) (E : String) (u : Bool)
    (modifier : Int) (adv : AdvantageType)
    (hp : parse_expression E = .ok (.d66 u modifier)) :
    ∃ r, DiceParser.roll cfg rng E adv = .ok (r, d66after rng) ∧
      r.individual_rolls = [⟨6, d66first rng⟩, ⟨6, d66second rng⟩] ∧
      1 ≤ d66first rng ∧ d66first rng ≤ 6 ∧
      1 ≤ d66second rng ∧ d66second rng ≤ 6 ∧
      r.d66_composed = some (if (if u then true else cfg)
        then 10 * max (d66first rng) (d66second rng)
          + min (d66first rng) (d66second rng)
        else 10 * d66first rng + d66second rng) ∧
      (∃ a b, 1 ≤ a ∧ a ≤ 6 ∧ 1 ≤ b ∧ b ≤ 6 ∧
        r.d66_composed = some (10 * a + b) ∧
        11 ≤ 10 * a + b ∧ 10 * a + b ≤ 66) ∧
      (∀ c, r.d66_composed = some c → r.total = (c : Int) + modifier) := by
  have h1a : 1 ≤ d66first rng := (randint_fst_le rng 1 6 (by omega)).1
  have h1b : d66first rng ≤ 6 := (randint_fst_le rng 1 6 (by omega)).2
  have h2a : 1 ≤ d66second rng :=
    (randint_fst_le (rng.randint 1 6).2 1 6 (by omega)).1
  have h2b : d66second rng ≤ 6 :=
    (randint_fst_le (rng.randint 1 6).2 1 6 (by omega)).2
  have hcomp : (roll_d66 cfg rng u).1.2 = (if (if u then true else cfg)
      then 10 * max (d66first rng) (d66second rng)
        + min (d66first rng) (d66second rng)
      else 10 * d66first rng + d66second rng) := by
    unfold roll_d66 d66first d66second
    cases u <;> cases cfg <;> simp <;> ring
  rw [roll_d66_eq cfg rng E adv u modifier hp]
  refine ⟨_, rfl, rfl, h1a, h1b, h2a, h2b, ?_, ?_, ?_⟩
  · show some (roll_d66 cfg rng u).1.2 = _
    rw [hcomp]
  · cases hu : (if u then true else cfg) with
    | true =>
      have hA1 : 1 ≤ max (d66first rng) (d66second rng) :=
        le_trans h1a (le_max_left _ _)
      have hA6 : max (d66first rng) (d66second rng) ≤ 6 := max_le h1b h2b
      have hB1 : 1 ≤ min (d66first rng) (d66second rng) := le_min h1a h2a
      have hB6 : min (d66first rng) (d66second rng) ≤ 6 :=
        le_trans (min_le_left _ _) h1b
      refine ⟨_, _, hA1, hA6, hB1, hB6, ?_,
        (digits_range _ _ hA1 hA6 hB1 hB6).1, (digits_range _ _ hA1 hA6 hB1 hB6).2⟩
      show some (roll_d66 cfg rng u).1.2 = _
      rw [hcomp, hu]
      simp
    | false =>
      refine ⟨_, _, h1a, h1b, h2a, h2b, ?_,
        (digits_range _ _ h1a h1b h2a h2b).1, (digits_range _ _ h1a h1b h2a h2b).2⟩
      show some (roll_d66 cfg rng u).1.2 = _
      rw [hcomp, hu]
      simp
  · intro c hc
    have hcc : (roll_d66 cfg rng u).1.2 = c := by
      simpa using hc
    show ((roll_d66 cfg rng u).1.2 : Int) + modifier = (c : Int) + modifier
    rw [hcc]

/-- C4 witness: instantiated at `d66u` with seed 42. -/
theorem d66_range_witness :
    ∃ r, DiceParser.roll false (Rng.init 42) "d66u" .NONE = .ok (r, d66after (Rng.init 42)) ∧
      r.individual_rolls = [⟨6, d66first (Rng.init 42)⟩, ⟨6, d66second (Rng.init 42)⟩] ∧
      1 ≤ d66first (Rng.init 42) ∧ d66first (Rng.init 42) ≤ 6 ∧
      1 ≤ d66second (Rng.init 42) ∧ d66second (Rng.init 42) ≤ 6 ∧
      r.d66_composed = some (if (if true then true else false)
        then 10 * max (d66first (Rng.init 42)) (d66second (Rng.init 42))
          + min (d66first (Rng.init 42)) (d66second (Rng.init 42))
        else 10 * d66first (Rng.init 42) + d66second (Rng.init 42)) ∧
      (∃ a b, 1 ≤ a ∧ a ≤ 6 ∧ 1 ≤ b ∧ b ≤ 6 ∧
        r.d66_composed = some (10 * a + b) ∧
        11 ≤ 10 * a + b ∧ 10 * a + b ≤ 66) ∧
      (∀ c, r.d66_composed = some c → r.total = (c : Int) + 0) :=
  d66_range false (Rng.init 42) "d66u" true 0 .NONE (by decide)

/-- C10: for every composite D66 roll, `individual_rolls` lists the two
dice in their original draw order, even for unordered rolls where the
descending-sorted pair determines the composed value; the unordered flag
changes only the composed value (hence the total) and the breakdown
string, never `individual_rolls` (modifier and advantage are unchanged
too). -/
theorem d66_unordered_frame (cfg : Bool) (rng : Rng) (E E' : String) (m : Int)
    (h : parse_expression E = .ok (.d66 false m))
    (h' : parse_expression E' = .ok (.d66 true m)) :
    ∃ r r', DiceParser.roll cfg rng E .NONE = .ok (r, d66after rng) ∧
      DiceParser.roll cfg rng E' .NONE = .ok (r', d66after rng) ∧
      r.individual_rolls = r'.individual_rolls ∧
      r.individual_rolls = [⟨6, d66first rng⟩, ⟨6, d66second rng⟩] ∧
      r'.d66_composed = some (10 * max (d66first rng) (d66second rng)
        + min (d66first rng) (d66second rng)) ∧
      r'.total = ((10 * max (d66first rng) (d66second rng)
        + min (d66first rng) (d66second rng) : Nat) : Int) + m ∧
      r.modifier = r'.modifier ∧
      r.advantage = r'.advantage := by
  rw [roll_d66_eq cfg rng E .NONE false m h, roll_d66_eq cfg rng E' .NONE true m h']
  have hcomp : (roll_d66 cfg rng true).1.2
      = 10 * max (d66first rng) (d66second rng) + min (d66first rng) (d66second rng) := by
    unfold roll_d66 d66first d66second
    simp
    ring
  refine ⟨_, _, rfl, rfl, rfl, rfl, ?_, ?_, rfl, rfl⟩
  · show some (roll_d66 cfg rng true).1.2 = _
    rw [hcomp]
  · show ((roll_d66 cfg rng true).1.2 : Int) + m = _
    rw [hcomp]

/-- C10 witness: instantiated at `d66` versus `d66u` with seed 42. -/
theorem d66_unordered_frame_witness :
    ∃ r r', DiceParser.roll false (Rng.init 42) "d66" .NONE
        = .ok (r, d66after (Rng.init 42)) ∧
      DiceParser.roll false (Rng.init 42) "d66u" .NONE
        = .ok (r', d66after (Rng.init 42)) ∧
      r.individual_rolls = r'.individual_rolls ∧
      r.individual_rolls = [⟨6, d66first (Rng.init 42)⟩, ⟨6, d66second (Rng.init 42)⟩] ∧
      r'.d66_composed = some (10 * max (d66first (Rng.init 42)) (d66second (Rng.init 42))
        + min (d66first (Rng.init 42)) (d66second (Rng.init 42))) ∧
      r'.total = ((10 * max (d66first (Rng.init 42)) (d66second (Rng.init 42))
        + min (d66first (Rng.init 42)) (d66second (Rng.init 42)) : Nat) : Int) + 0 ∧
      r.modifier = r'.modifier ∧
      r.advantage = r'.advantage :=
  d66_unordered_frame false (Rng.init 42) "d66" "d66u" 0 (by decide) (by decide)

/-- C5 counterexample: the claim says the 1000-die ceiling is enforced on
every roll path, but the core `DiceParser` path has no ceiling: `1001d1`
parses successfully and `DiceParser.roll` executes it without error rather
than failing with an expression error. -/
theorem count_ceiling_counterexample :
    parse_expression "1001d1" = .ok (.standard 1001 1 0) ∧
    (DiceParser.roll false (Rng.init 0) "1001d1" .NONE).isOk = true :=
  ⟨by decide, roll_ok_of_parse _ _ _ _ (.standard 1001 1 0) (by decide)⟩

/-- C5 (amended): the `count > 1000` ceiling is enforced only by the legacy
roll implementation (`src/src/cetools/dice.py`), where `1001d1` fails with
the same invalid-input error kind as malformed input and `1000d1`
succeeds; the core `DiceParser` path accepts counts above 1000. -/
theorem count_ceiling_legacy_only :
    legacy_roll "1001d1" 0
      = .error (.invalidInputError "Dice count too large: 1001") ∧
    (legacy_roll "1000d1" 0).isOk = true ∧
    (DiceParser.roll false (Rng.init 0) "1001d1" .NONE).isOk = true :=
  ⟨by decide, by decide, roll_ok_of_parse _ _ _ _ (.standard 1001 1 0) (by decide)⟩

/-- C6 counterexample: the numeric-constraint failure does not carry the
offending input text: parsing `0d6` raises the fixed message
`Dice count and size must be positive`, which does not contain `0d6`. -/
theorem error_text_counterexample :
    parse_expression "0d6"
      = .error (.expressionError "Dice count and size must be positive") ∧
    containsSub ("Dice count and size must be positive".toList) ("0d6".toList)
      = false :=
  ⟨by decide, by decide⟩

/-- C6 (amended): every parse error is one of exactly two shapes: inputs
matching no grammar fail with `Invalid dice expression: <stripped input>`,
which carries the offending text, while zero/negative count or size fails
with the fixed message `Dice count and size must be positive`, which does
not. -/
theorem expression_error_messages (E : String) (e : DiceError)
    (h : parse_expression E = .error e) :
    e = .expressionError ("Invalid dice expression: "
          ++ String.mk (pyStrip E.toList)) ∨
    e = .expressionError "Dice count and size must be positive" := by
  simp only [parse_expression] at h
  split at h
  · exact absurd h (by simp)
  · split at h
    · split at h
      · exact Or.inr (Except.error.inj h).symm
      · exact absurd h (by simp)
    · exact Or.inl (Except.error.inj h).symm

/-- C6 amended witness: instantiated at the malformed input `invalid`. -/
theorem expression_error_messages_witness :
    (DiceError.expressionError "Invalid dice expression: invalid")
      = .expressionError ("Invalid dice expression: "
          ++ String.mk (pyStrip "invalid".toList)) ∨
    (DiceError.expressionError "Invalid dice expression: invalid")
      = .expressionError "Dice count and size must be positive" :=
  expression_error_messages "invalid" _ (by decide)

/-- C9 counterexample: under ADVANTAGE the returned `RollResult` does not
contain the full set of rolls: with seed 0 a `1d20` advantage roll draws
original 6 and extra 9, selects 9, and `individual_rolls` — the only list
of rolls in the result — is `[⟨20, 9⟩]`, without the discarded `⟨20, 6⟩`;
the full set has length 2. -/
theorem discarded_rolls_counterexample :
    (DiceParser.roll false (Rng.init 0) "1d20" .ADVANTAGE).map
        (fun p => p.1.individual_rolls) = .ok [⟨20, 9⟩] ∧
    originals (Rng.init 0) 1 20 = [⟨20, 6⟩] ∧
    extraBatch (Rng.init 0) 1 20 = [⟨20, 9⟩] ∧
    (originals (Rng.init 0) 1 20 ++ extraBatch (Rng.init 0) 1 20).length = 2 ∧
    ¬ ((⟨20, 6⟩ : DiceRoll) ∈ ([⟨20, 9⟩] : List DiceRoll)) :=
  ⟨by decide, by decide, by decide, by decide, by decide⟩

/-- C9 (amended): for every standard roll with ADVANTAGE or DISADVANTAGE,
the returned `RollResult`'s `individual_rolls` field holds only the
`count` selected rolls actually summed into the total; the full set
including the discarded extras appears in the result only through the
breakdown string, which renders the originals followed by the extras
alongside the selected results. -/
theorem advantage_rolls_in_breakdown (cfg : Bool) (rng : Rng) (E : String)
    (count size : Nat) (modifier : Int) (adv : AdvantageType)
    (hp : parse_expression E = .ok (.standard count size modifier))
    (ha : adv ≠ .NONE) :
    ∃ r rng2, DiceParser.roll cfg rng E adv = .ok (r, rng2) ∧
      r.individual_rolls
        = selectRolls (originals rng count size) (extraBatch rng count size) adv ∧
      r.individual_rolls.length = count ∧
      r.breakdown = stdBreakdown adv
        (originals rng count size ++ extraBatch rng count size)
        r.individual_rolls modifier r.total := by
  have hlen_o : (originals rng count size).length = count :=
    roll_diceN_length rng count size
  have hlen_e : (extraBatch rng count size).length = count := by
    unfold extraBatch
    rw [rollExtras_length, roll_diceN_length]
  rw [roll_standard_eq cfg rng E adv count size modifier hp]
  simp only [if_pos ha, apply_advantage_ne _ _ _ ha]
  refine ⟨_, _, rfl, rfl, ?_, rfl⟩
  show (selectRolls (originals rng count size) (extraBatch rng count size) adv).length
    = count
  rw [selectRolls_length _ _ _ (by omega), hlen_o]

/-- C9 amended witness: instantiated at `1d20` with seed 0 under
ADVANTAGE. -/
theorem advantage_rolls_in_breakdown_witness :
    ∃ r rng2, DiceParser.roll false (Rng.init 0) "1d20" .ADVANTAGE = .ok (r, rng2) ∧
      r.individual_rolls
        = selectRolls (originals (Rng.init 0) 1 20) (extraBatch (Rng.init 0) 1 20)
            .ADVANTAGE ∧
      r.individual_rolls.length = 1 ∧
      r.breakdown = stdBreakdown .ADVANTAGE
        (originals (Rng.init 0) 1 20 ++ extraBatch (Rng.init 0) 1 20)
        r.individual_rolls 0 r.total :=
  advantage_rolls_in_breakdown false (Rng.init 0) "1d20" 1 20 0 .ADVANTAGE
    (by decide) (by decide)

/-- C8 witness: `D66-1` matches both grammars (as D66 with modifier `-1`,
and as `1d66-1` under the standard pattern) and is classified as D66. -/
theorem d66_precedence_witness :
    matchD66 (normalize "D66-1") = some (false, -1) ∧
    matchStd (normalize "D66-1") = some (none, 66, -1) ∧
    parse_expression "D66-1" = .ok (.d66 false (-1)) :=
  ⟨by decide, by decide,
   d66_precedence "D66-1" false (-1) none 66 (-1) (by decide) (by decide)⟩

end CETools
